import Mathlib

/-! Shallow embedding of the OCR image-annotation frontend
(src/frontend/src/App.js).

The React component state (the useState hooks, App.js lines 9-18) is the
structure `AppState`; each event handler of the component is a pure state
transformer on it.  The asynchronous OCR call is modelled by the trace
machine `step` / `run`: the event `ocrArrives` delivers the response of the
outstanding `axios.post` started by `handleUploadAndOCR`.  `uploadGen` and
the tag stored in `inFlight` are ghost fields recording which file
selection a request was started under; the transition functions never read
them (the source has no such token), they only let us state staleness
properties about traces. -/

/-- Response payload of the upload-ocr endpoint as consumed by the
frontend (App.js lines 65-66 and 240: `response.data` with fields
`id`, `filename`, `extracted_text`, `confidence`). -/
structure OcrResult where
  id : String
  filename : String
  extracted_text : String
  confidence : ℚ
  deriving Repr, DecidableEq

/-- One pending text edit, exactly the object literal built by
`handleImageClick` (App.js lines 94-100). -/
structure Edit where
  text : String
  x : ℤ
  y : ℤ
  font_size : ℕ
  font_color : String
  deriving Repr, DecidableEq

/-- Component state: one field per useState hook (App.js lines 9-18).
`selectedFile` holds the selected file's name (standing for the File
object); `imagePreview` models the object URL created for it. -/
structure AppState where
  selectedFile : Option String
  extractedText : String
  isLoading : Bool
  ocrResult : Option OcrResult
  imagePreview : Option String
  textEdits : List Edit
  isEditMode : Bool
  newText : String
  fontSize : ℕ
  fontColor : String
  deriving Repr, DecidableEq

/-- Initial values of the useState hooks (App.js lines 9-18). -/
def initialState : AppState :=
  { selectedFile := none, extractedText := "", isLoading := false,
    ocrResult := none, imagePreview := none, textEdits := [],
    isEditMode := false, newText := "", fontSize := 24,
    fontColor := "#000000" }

/-- handleFileSelect (App.js lines 22-32): when a file is present, store
it, create a preview, and clear extractedText, ocrResult, textEdits and
isEditMode.  `newText`, `fontSize` and `fontColor` are not touched by the
source.  With no file the handler does nothing. -/
def handleFileSelect (file : Option String) (s : AppState) : AppState :=
  match file with
  | some name =>
      { s with selectedFile := some name, imagePreview := some name,
               extractedText := "", ocrResult := none, textEdits := [],
               isEditMode := false }
  | none => s

/-- JavaScript String.prototype.startsWith, used on the dropped file's
MIME type (App.js line 41). -/
def jsStartsWith (s pre : String) : Bool := pre.data.isPrefixOf s.data

/-- handleDrop (App.js lines 38-49): same resets as handleFileSelect, but
only when the dropped file's MIME type starts with "image/". -/
def handleDrop (name ftype : String) (s : AppState) : AppState :=
  if jsStartsWith ftype "image/" then
    { s with selectedFile := some name, imagePreview := some name,
             extractedText := "", ocrResult := none, textEdits := [],
             isEditMode := false }
  else s

/-- Success continuation of handleUploadAndOCR (App.js lines 65-66 plus
the `finally` on line 71): install the response as ocrResult, copy its
extracted_text into the textarea state, drop the loading flag.  Note that
`textEdits` is NOT cleared here. -/
def applyOcrSuccess (data : OcrResult) (s : AppState) : AppState :=
  { s with ocrResult := some data, extractedText := data.extracted_text,
           isLoading := false }

/-- handleTextEdit (App.js lines 75-77): overwrite the textarea state. -/
def handleTextEdit (t : String) (s : AppState) : AppState :=
  { s with extractedText := t }

/-- JavaScript String.prototype.trim: strip whitespace from both ends
(used by the guard of handleImageClick, App.js line 80). -/
def jsTrim (s : String) : String :=
  String.mk
    (((s.data.dropWhile Char.isWhitespace).reverse.dropWhile
        Char.isWhitespace).reverse)

/-- Math.round on a rational argument: the nearest integer, with ties
rounded towards positive infinity (`Math.round(q) = ⌊q + 0.5⌋`). -/
def jsRound (q : ℚ) : ℤ := ⌊q + 1/2⌋

/-- Coordinate mapping of handleImageClick (App.js lines 82-92):
`scaleX = naturalWidth / width`, `actualX = Math.round(x * scaleX)`, and
likewise for y.  `lx, ly` are the click coordinates relative to the
element (floats in the DOM, hence rationals here); the displayed size
`dw × dh` and natural size `nw × nh` are integer DOM properties. -/
def mapClickToOriginal (lx ly : ℚ) (dw dh nw nh : ℕ) : ℤ × ℤ :=
  (jsRound (lx * ((nw : ℚ) / (dw : ℚ))), jsRound (ly * ((nh : ℚ) / (dh : ℚ))))

/-- Guard and append of handleImageClick (App.js lines 80 and 94-103),
taking the already-mapped original-image coordinates: refuse when edit
mode is off or the pending text trims to empty, otherwise append one edit
built from the pending fields and clear `newText`. -/
def addEdit (x y : ℤ) (s : AppState) : AppState :=
  if s.isEditMode = false ∨ jsTrim s.newText = "" then s
  else
    { s with
      textEdits := s.textEdits ++
        [{ text := s.newText, x := x, y := y, font_size := s.fontSize,
           font_color := s.fontColor }],
      newText := "" }

/-- handleImageClick (App.js lines 79-104): map the click into
original-image coordinates and run the guarded append.  (In the source
the guard is tested before the coordinates are computed; the mapping is
pure, so the composition is observationally identical.) -/
def handleImageClick (lx ly : ℚ) (dw dh nw nh : ℕ) (s : AppState) : AppState :=
  addEdit (mapClickToOriginal lx ly dw dh nw nh).1
    (mapClickToOriginal lx ly dw dh nw nh).2 s

/-- Wire contract of the edit-image call (App.js lines 113-116). -/
structure EditRequest where
  file_id : String
  edits : List Edit
  deriving Repr, DecidableEq

/-- Which disjunct of the guard of downloadEditedImage (App.js line 107,
`!ocrResult || textEdits.length === 0`) fired.  The source surfaces both
through the same alert; the constructors record which short-circuited
condition refused the build, following the spec's error taxonomy. -/
inductive BuildError where
  | NoArtifact
  | NoAnnotations
  deriving Repr, DecidableEq

/-- Request-building part of downloadEditedImage (App.js lines 106-117):
refuse when no OCR result is present (first disjunct of the guard) or the
edit list is empty (second disjunct); otherwise build
`{ file_id: ocrResult.id, edits: textEdits }`. -/
def buildRequest (s : AppState) : Except BuildError EditRequest :=
  match s.ocrResult with
  | none => Except.error BuildError.NoArtifact
  | some r =>
      if s.textEdits = [] then Except.error BuildError.NoAnnotations
      else Except.ok { file_id := r.id, edits := s.textEdits }

/-- clearEdits (App.js lines 137-139). -/
def clearEdits (s : AppState) : AppState := { s with textEdits := [] }

/-- User-interface and network events that drive the component.  `dw dh
nw nh` of `imageClick` are the displayed and natural image dimensions at
click time; `fontSizeInput` comes from the range input of App.js lines
277-284 (whose min/max attributes keep its value in [12, 72]). -/
inductive Event where
  | fileSelect (file : Option String)
  | fileDrop (name ftype : String)
  | uploadStart
  | ocrArrives (data : OcrResult)
  | ocrFails
  | textEdit (t : String)
  | imageClick (lx ly : ℚ) (dw dh nw nh : ℕ)
  | clearEditsClick
  | toggleEditClick
  | newTextInput (t : String)
  | fontSizeInput (v : ℕ)
  | fontColorInput (c : String)
  deriving DecidableEq

/-- Trace state: the component state plus ghost bookkeeping for the
asynchronous OCR call.  `uploadGen` counts accepted file selections;
`inFlight = some (g, f)` records that an upload-ocr request for file `f`
was started while the generation was `g` and has not resolved yet.  The
transitions never read the ghost tag: the source applies whatever
response arrives. -/
structure TraceState where
  app : AppState
  uploadGen : ℕ
  inFlight : Option (ℕ × String)
  deriving Repr, DecidableEq

/-- Initial trace state. -/
def initialTrace : TraceState :=
  { app := initialState, uploadGen := 0, inFlight := none }

/-- One event step.  `uploadStart` follows handleUploadAndOCR (App.js
lines 51-54): it requires a selected file and is blocked while loading
(the button is disabled, App.js line 200); it marks the request in
flight.  `ocrArrives` / `ocrFails` resolve the outstanding request with
the success (lines 65-66) or failure (lines 67-72) continuation. -/
def step (s : TraceState) : Event → TraceState
  | Event.fileSelect file =>
      match file with
      | some name =>
          { s with app := handleFileSelect (some name) s.app,
                   uploadGen := s.uploadGen + 1 }
      | none => s
  | Event.fileDrop name ftype =>
      if jsStartsWith ftype "image/" then
        { s with app := handleDrop name ftype s.app,
                 uploadGen := s.uploadGen + 1 }
      else s
  | Event.uploadStart =>
      match s.app.selectedFile with
      | none => s
      | some f =>
          if s.app.isLoading then s
          else { s with app := { s.app with isLoading := true },
                        inFlight := some (s.uploadGen, f) }
  | Event.ocrArrives data =>
      match s.inFlight with
      | none => s
      | some _ => { s with app := applyOcrSuccess data s.app, inFlight := none }
  | Event.ocrFails =>
      match s.inFlight with
      | none => s
      | some _ =>
          { s with app := { s.app with isLoading := false }, inFlight := none }
  | Event.textEdit t => { s with app := handleTextEdit t s.app }
  | Event.imageClick lx ly dw dh nw nh =>
      { s with app := handleImageClick lx ly dw dh nw nh s.app }
  | Event.clearEditsClick => { s with app := clearEdits s.app }
  | Event.toggleEditClick =>
      { s with app := { s.app with isEditMode := !s.app.isEditMode } }
  | Event.newTextInput t => { s with app := { s.app with newText := t } }
  | Event.fontSizeInput v => { s with app := { s.app with fontSize := v } }
  | Event.fontColorInput c => { s with app := { s.app with fontColor := c } }

/-- Run a list of events from the initial state. -/
def run (evts : List Event) : TraceState := evts.foldl step initialTrace

/-- The pending font size is inside the bounds enforced by the range
input of App.js lines 277-284 (`min="12" max="72"`). -/
def FontOk (s : AppState) : Prop := 12 ≤ s.fontSize ∧ s.fontSize ≤ 72

/-- Every stored edit carries non-empty text and a font size inside
[12, 72]. -/
def EditsOk (s : AppState) : Prop :=
  ∀ e ∈ s.textEdits, e.text ≠ "" ∧ 12 ≤ e.font_size ∧ e.font_size ≤ 72

/-- An event respects the range input's min/max attributes (App.js lines
277-284): a `fontSizeInput` only ever delivers a value in [12, 72]. -/
def fontInputOk : Event → Bool
  | Event.fontSizeInput v => decide (12 ≤ v ∧ v ≤ 72)
  | _ => true

/-- Sample OCR responses for two extraction calls on the same file; the
backend mints a fresh artifact id per call. -/
def ocrA : OcrResult :=
  { id := "art1", filename := "a.png", extracted_text := "alpha", confidence := 90 }

/-- Second response, carrying a different artifact id. -/
def ocrB : OcrResult :=
  { id := "art2", filename := "a.png", extracted_text := "alpha", confidence := 91 }

/-- Select a file, extract, type a label, arm edit mode, click once:
leaves one stored edit created while artifact "art1" was current. -/
def repeatTrace1 : List Event :=
  [Event.fileSelect (some "a.png"), Event.uploadStart, Event.ocrArrives ocrA,
   Event.newTextInput "Hi", Event.toggleEditClick,
   Event.imageClick 10 10 100 100 100 100]

/-- The same run continued with a second extraction of the same file,
which installs the new result `ocrB`. -/
def repeatTrace2 : List Event :=
  repeatTrace1 ++ [Event.uploadStart, Event.ocrArrives ocrB]

/-- Select file a, start its extraction, then select file b while the
request is still outstanding. -/
def staleTrace1 : List Event :=
  [Event.fileSelect (some "a.png"), Event.uploadStart,
   Event.fileSelect (some "b.png")]

/-- The same run continued with the arrival of the response to the
superseded extraction of file a. -/
def staleTrace2 : List Event := staleTrace1 ++ [Event.ocrArrives ocrA]

/-- A run that sets the font size through the range input and places one
edit. -/
def wfTrace : List Event :=
  [Event.fileSelect (some "a.png"), Event.uploadStart, Event.ocrArrives ocrA,
   Event.fontSizeInput 30, Event.newTextInput "Hi", Event.toggleEditClick,
   Event.imageClick 10 10 100 100 100 100]

/-- Edit mode armed but the pending text is only whitespace. -/
def wsPending : AppState :=
  { initialState with isEditMode := true, newText := "  " }

/-- The spec scenario state: edit mode on, pending text "Hi", font size
24 and color "#000000" (the initial values). -/
def hiPending : AppState :=
  { initialState with isEditMode := true, newText := "Hi" }

/-- Two sample edits for the build-request scenario. -/
def edit1 : Edit :=
  { text := "one", x := 1, y := 2, font_size := 20, font_color := "#ff0000" }

/-- Second sample edit. -/
def edit2 : Edit :=
  { text := "two", x := 3, y := 4, font_size := 30, font_color := "#00ff00" }

/-- Result installed for the build-request scenario. -/
def ocrABC : OcrResult :=
  { id := "abc123", filename := "doc.png", extracted_text := "t", confidence := 88 }

/-- Edits present but no OCR result. -/
def sNoArtifact : AppState := { initialState with textEdits := [edit1] }

/-- OCR result present but no edits. -/
def sNoEdits : AppState := { initialState with ocrResult := some ocrABC }

/-- OCR result and two edits present. -/
def sReady : AppState :=
  { initialState with ocrResult := some ocrABC, textEdits := [edit1, edit2] }

/-- A state with every style field away from its initial value. -/
def styledState : AppState :=
  { initialState with
    newText := "Hi", fontSize := 31, fontColor := "#112233",
    textEdits := [edit1], isEditMode := true }

/-! Helper lemmas. -/

/-- Trimming the empty string gives the empty string. -/
theorem jsTrim_empty : jsTrim "" = "" := by decide

/-- A packed character list equals the empty string exactly when it is
nil. -/
theorem mk_eq_empty_iff (x : List Char) : String.mk x = "" ↔ x = [] := by
  constructor
  · intro h
    have h' : String.mk x = String.mk [] := h
    injection h'
  · intro h
    rw [h]

/-- A string trims to empty exactly when every character is whitespace
(in particular when it is empty). -/
theorem jsTrim_eq_empty_iff (s : String) :
    jsTrim s = "" ↔ ∀ c ∈ s.data, c.isWhitespace = true := by
  unfold jsTrim
  rw [mk_eq_empty_iff, List.reverse_eq_nil_iff, List.dropWhile_eq_nil_iff]
  constructor
  · intro h c hc
    have hsplit :
        s.data.takeWhile Char.isWhitespace ++
          s.data.dropWhile Char.isWhitespace = s.data :=
      List.takeWhile_append_dropWhile Char.isWhitespace s.data
    rw [← hsplit] at hc
    rcases List.mem_append.mp hc with h1 | h2
    · exact List.mem_takeWhile_imp h1
    · exact h c (List.mem_reverse.mpr h2)
  · intro h c hc
    have hc' : c ∈ s.data.dropWhile Char.isWhitespace := List.mem_reverse.mp hc
    have hsplit :
        s.data.takeWhile Char.isWhitespace ++
          s.data.dropWhile Char.isWhitespace = s.data :=
      List.takeWhile_append_dropWhile Char.isWhitespace s.data
    exact h c (by rw [← hsplit]; exact List.mem_append.mpr (Or.inr hc'))

/-- A state with no edits satisfies the edits invariant. -/
theorem editsOk_of_nil (u : AppState) (hu : u.textEdits = []) : EditsOk u := by
  intro x hx
  rw [hu] at hx
  exact absurd hx (List.not_mem_nil x)

/-- addEdit preserves the edit invariants: a refused click changes
nothing, an accepted click appends an edit with non-empty text (the trim
guard) and the pending font size (in range by `FontOk`). -/
theorem addEdit_ok (x y : ℤ) (s : AppState)
    (h : FontOk s ∧ EditsOk s) :
    FontOk (addEdit x y s) ∧ EditsOk (addEdit x y s) := by
  unfold addEdit
  split
  · exact h
  next hguard =>
    push_neg at hguard
    obtain ⟨hmode, htrim⟩ := hguard
    refine ⟨h.1, ?_⟩
    intro e he
    simp only [List.mem_append, List.mem_singleton] at he
    rcases he with he | rfl
    · exact h.2 e he
    · refine ⟨?_, h.1.1, h.1.2⟩
      intro h0
      have h0' : s.newText = "" := h0
      rw [h0'] at htrim
      exact htrim jsTrim_empty

/-- handleDrop preserves the edit invariants. -/
theorem handleDrop_ok (name ftype : String) (s : AppState)
    (h : FontOk s ∧ EditsOk s) :
    FontOk (handleDrop name ftype s) ∧ EditsOk (handleDrop name ftype s) := by
  unfold handleDrop
  split
  · exact ⟨h.1, editsOk_of_nil _ rfl⟩
  · exact h

/-- Every step of the trace machine preserves the edit invariants,
provided font-size inputs respect the range input's bounds. -/
theorem step_preserves_ok (t : TraceState) (e : Event)
    (he : fontInputOk e = true)
    (h : FontOk t.app ∧ EditsOk t.app) :
    FontOk (step t e).app ∧ EditsOk (step t e).app := by
  cases e with
  | fileSelect file =>
      cases file with
      | none => exact h
      | some name => exact ⟨h.1, editsOk_of_nil _ rfl⟩
  | fileDrop name ftype =>
      simp only [step]
      split
      · exact handleDrop_ok name ftype t.app h
      · exact h
  | uploadStart =>
      simp only [step]
      split
      · exact h
      · split
        · exact h
        · exact h
  | ocrArrives data =>
      simp only [step]
      split
      · exact h
      · exact h
  | ocrFails =>
      simp only [step]
      split
      · exact h
      · exact h
  | textEdit t' => exact h
  | imageClick lx ly dw dh nw nh => exact addEdit_ok _ _ t.app h
  | clearEditsClick => exact ⟨h.1, editsOk_of_nil _ rfl⟩
  | toggleEditClick => exact h
  | newTextInput t' => exact h
  | fontSizeInput v =>
      have hv : 12 ≤ v ∧ v ≤ 72 := of_decide_eq_true he
      exact ⟨hv, h.2⟩
  | fontColorInput c => exact h

/-- Folding any list of bounded-font events preserves the edit
invariants. -/
theorem foldl_preserves_ok (evts : List Event) :
    ∀ t : TraceState, (∀ e ∈ evts, fontInputOk e = true) →
      FontOk t.app ∧ EditsOk t.app →
      FontOk (evts.foldl step t).app ∧ EditsOk (evts.foldl step t).app := by
  induction evts with
  | nil => intro t _ h; exact h
  | cons e rest ih =>
      intro t hall h
      exact ih (step t e) (fun x hx => hall x (List.mem_cons_of_mem e hx))
        (step_preserves_ok t e (hall e (List.mem_cons_self e rest)) h)

/-- Bounds for one rounded, rescaled coordinate: for a displayed extent
`d > 0`, a natural extent `n` and a local coordinate `0 ≤ l ≤ d`, the
rounded original coordinate lies in `[0, n]`. -/
theorem jsRound_scale_bounds (l : ℚ) (d n : ℕ) (hd : 0 < d) (h0 : 0 ≤ l)
    (h1 : l ≤ (d : ℚ)) :
    0 ≤ jsRound (l * ((n : ℚ) / (d : ℚ))) ∧
      jsRound (l * ((n : ℚ) / (d : ℚ))) ≤ (n : ℤ) := by
  have hdQ : (0 : ℚ) < (d : ℚ) := by exact_mod_cast hd
  have hq0 : 0 ≤ l * ((n : ℚ) / (d : ℚ)) :=
    mul_nonneg h0 (div_nonneg (Nat.cast_nonneg n) (le_of_lt hdQ))
  have hq1 : l * ((n : ℚ) / (d : ℚ)) ≤ (n : ℚ) := by
    have hnn : 0 ≤ (n : ℚ) / (d : ℚ) :=
      div_nonneg (Nat.cast_nonneg n) (le_of_lt hdQ)
    have h2 : l * ((n : ℚ) / (d : ℚ)) ≤ (d : ℚ) * ((n : ℚ) / (d : ℚ)) :=
      mul_le_mul_of_nonneg_right h1 hnn
    have h3 : (d : ℚ) * ((n : ℚ) / (d : ℚ)) = (n : ℚ) := by
      field_simp
    linarith
  unfold jsRound
  constructor
  · apply Int.le_floor.mpr
    push_cast
    linarith
  · have h4 : ⌊l * ((n : ℚ) / (d : ℚ)) + 1 / 2⌋ < (n : ℤ) + 1 := by
      apply Int.floor_lt.mpr
      push_cast
      linarith
    omega

/-! Claim theorems. -/

/-- C1 counterexample: installing a new ExtractionResult does not empty
the edits list.  In the reachable run `repeatTrace1` one edit was placed
while artifact "art1" was current; the continuation `repeatTrace2`
re-runs extraction on the same file and installs artifact "art2", yet the
edit created under "art1" is still stored. -/
theorem c1_counterexample :
    (run repeatTrace1).app.ocrResult = some ocrA ∧
    (run repeatTrace1).app.textEdits ≠ [] ∧
    (run repeatTrace2).app.ocrResult = some ocrB ∧
    (run repeatTrace2).app.textEdits = (run repeatTrace1).app.textEdits ∧
    (run repeatTrace2).app.textEdits ≠ [] :=
  ⟨by decide, by decide, by decide, rfl, by decide⟩

/-- C1 amended: the edits list is emptied when a new image file is
selected (which also clears the held ExtractionResult), but installing an
OCR response itself never clears the edits list, so edits can survive a
change of artifactId when extraction is re-run for the same file. -/
theorem c1_amended_reset_on_file_load :
    (∀ (name : String) (s : AppState),
        (handleFileSelect (some name) s).textEdits = [] ∧
        (handleFileSelect (some name) s).ocrResult = none) ∧
    (∀ (data : OcrResult) (s : AppState),
        (applyOcrSuccess data s).textEdits = s.textEdits) :=
  ⟨fun _ _ => ⟨rfl, rfl⟩, fun _ _ => rfl⟩

/-- C2 counterexample: loading a new image file does NOT clear the
pending text: handleFileSelect leaves `newText` as it was. -/
theorem c2_counterexample :
    (handleFileSelect (some "b.png")
        { initialState with newText := "Hi" }).newText = "Hi" ∧
    (handleFileSelect (some "b.png")
        { initialState with newText := "Hi" }).newText ≠ "" :=
  ⟨rfl, by decide⟩

/-- C2 amended: loading a new image file (select or image-typed drop)
empties the edits list and disables edit mode, and leaves pendingText,
pendingFontSize and pendingFontColor all unchanged. -/
theorem c2_amended_reset_behavior :
    (∀ (name : String) (s : AppState),
        (handleFileSelect (some name) s).textEdits = [] ∧
        (handleFileSelect (some name) s).isEditMode = false ∧
        (handleFileSelect (some name) s).newText = s.newText ∧
        (handleFileSelect (some name) s).fontSize = s.fontSize ∧
        (handleFileSelect (some name) s).fontColor = s.fontColor) ∧
    (∀ (name ftype : String) (s : AppState),
        jsStartsWith ftype "image/" = true →
        (handleDrop name ftype s).textEdits = [] ∧
        (handleDrop name ftype s).isEditMode = false ∧
        (handleDrop name ftype s).newText = s.newText ∧
        (handleDrop name ftype s).fontSize = s.fontSize ∧
        (handleDrop name ftype s).fontColor = s.fontColor) := by
  constructor
  · intro name s
    exact ⟨rfl, rfl, rfl, rfl, rfl⟩
  · intro name ftype s hf
    unfold handleDrop
    rw [if_pos hf]
    exact ⟨rfl, rfl, rfl, rfl, rfl⟩

/-- C2 amended, witness: an image-typed drop on a fully styled state
keeps all three pending style fields. -/
theorem c2_amended_witness :
    jsStartsWith "image/png" "image/" = true ∧
    ((handleDrop "b.png" "image/png" styledState).textEdits = [] ∧
     (handleDrop "b.png" "image/png" styledState).isEditMode = false ∧
     (handleDrop "b.png" "image/png" styledState).newText = styledState.newText ∧
     (handleDrop "b.png" "image/png" styledState).fontSize = styledState.fontSize ∧
     (handleDrop "b.png" "image/png" styledState).fontColor = styledState.fontColor) :=
  ⟨by decide, c2_amended_reset_behavior.2 "b.png" "image/png" styledState (by decide)⟩

/-- C3: the code has no per-upload token, so a stale extraction response
is applied, not discarded.  In `staleTrace1` the request for file a was
started under upload generation 1 and file b was selected afterwards
(generation 2, session result cleared); in `staleTrace2` the superseded
response then arrives and overwrites the session with file a's result. -/
theorem c3_stale_response_applied :
    (run staleTrace1).inFlight = some (1, "a.png") ∧
    (run staleTrace1).uploadGen = 2 ∧
    (run staleTrace1).app.ocrResult = none ∧
    (run staleTrace2).app.ocrResult = some ocrA ∧
    (run staleTrace2).app.extractedText = ocrA.extracted_text :=
  ⟨by decide, by decide, by decide, by decide, by decide⟩

/-- C4: with edit mode off, or with a pending text that is empty or all
whitespace, a click is a no-op: addEdit (and hence the whole
handleImageClick) returns the state unchanged. -/
theorem c4_addEdit_noop (s : AppState) (x y : ℤ) (lx ly : ℚ)
    (dw dh nw nh : ℕ)
    (h : s.isEditMode = false ∨ ∀ c ∈ s.newText.data, c.isWhitespace = true) :
    addEdit x y s = s ∧ handleImageClick lx ly dw dh nw nh s = s := by
  have hg : s.isEditMode = false ∨ jsTrim s.newText = "" := by
    rcases h with h | h
    · exact Or.inl h
    · exact Or.inr ((jsTrim_eq_empty_iff s.newText).mpr h)
  constructor
  · unfold addEdit
    rw [if_pos hg]
  · unfold handleImageClick addEdit
    rw [if_pos hg]

/-- C4 witness: edit mode armed but whitespace-only pending text; the
click changes nothing. -/
theorem c4_witness :
    (wsPending.isEditMode = false ∨
      ∀ c ∈ wsPending.newText.data, c.isWhitespace = true) ∧
    addEdit 5 7 wsPending = wsPending ∧
    handleImageClick 1 1 2 2 2 2 wsPending = wsPending :=
  ⟨Or.inr (by decide),
   (c4_addEdit_noop wsPending 5 7 1 1 2 2 2 2 (Or.inr (by decide))).1,
   (c4_addEdit_noop wsPending 5 7 1 1 2 2 2 2 (Or.inr (by decide))).2⟩

/-- C5: with edit mode on and pending text that is not all whitespace,
addEdit appends exactly one edit built from the pending fields at the end
of the list (earlier edits unchanged, in order), clears the pending text,
and leaves the font size and color untouched. -/
theorem c5_addEdit_appends (s : AppState) (x y : ℤ)
    (hm : s.isEditMode = true)
    (ht : ¬ ∀ c ∈ s.newText.data, c.isWhitespace = true) :
    addEdit x y s =
      { s with
        textEdits := s.textEdits ++
          [{ text := s.newText, x := x, y := y, font_size := s.fontSize,
             font_color := s.fontColor }],
        newText := "" } := by
  have ht' : jsTrim s.newText ≠ "" := fun h0 =>
    ht ((jsTrim_eq_empty_iff s.newText).mp h0)
  have hcond : ¬(s.isEditMode = false ∨ jsTrim s.newText = "") := by
    push_neg
    exact ⟨by simp [hm], ht'⟩
  unfold addEdit
  rw [if_neg hcond]

/-- C5 witness: the spec scenario.  Edit mode on, pendingText "Hi", font
size 24, color "#000000"; one click at mapped coordinates (200, 200)
leaves exactly one edit and clears the pending text. -/
theorem c5_witness :
    hiPending.isEditMode = true ∧
    (¬ ∀ c ∈ hiPending.newText.data, c.isWhitespace = true) ∧
    addEdit 200 200 hiPending =
      { hiPending with
        textEdits := [{ text := "Hi", x := 200, y := 200, font_size := 24,
                        font_color := "#000000" }],
        newText := "" } :=
  ⟨rfl, by decide,
   (c5_addEdit_appends hiPending 200 200 rfl (by decide)).trans (by decide)⟩

/-- C6: buildRequest refuses with NoArtifact when no OCR result is held,
refuses with NoAnnotations when the edit list is empty, and otherwise
returns the artifact id together with the stored edits in exactly the
stored order. -/
theorem c6_buildRequest_cases (s : AppState) :
    (s.ocrResult = none →
        buildRequest s = Except.error BuildError.NoArtifact) ∧
    (∀ r, s.ocrResult = some r → s.textEdits = [] →
        buildRequest s = Except.error BuildError.NoAnnotations) ∧
    (∀ r, s.ocrResult = some r → s.textEdits ≠ [] →
        buildRequest s = Except.ok { file_id := r.id, edits := s.textEdits }) := by
  refine ⟨?_, ?_, ?_⟩
  · intro h
    simp [buildRequest, h]
  · intro r hr he
    simp [buildRequest, hr, he]
  · intro r hr hne
    simp [buildRequest, hr, hne]

/-- C6 witness: all three branches at concrete states, including the
spec scenario with artifact "abc123" and two edits in insertion order. -/
theorem c6_witness :
    buildRequest sNoArtifact = Except.error BuildError.NoArtifact ∧
    buildRequest sNoEdits = Except.error BuildError.NoAnnotations ∧
    buildRequest sReady = Except.ok { file_id := "abc123", edits := [edit1, edit2] } :=
  ⟨(c6_buildRequest_cases sNoArtifact).1 rfl,
   (c6_buildRequest_cases sNoEdits).2.1 ocrABC rfl rfl,
   (c6_buildRequest_cases sReady).2.2 ocrABC rfl (by decide)⟩

/-- C7: the mapping computes round(localX * naturalWidth / displayedWidth)
(and likewise for y) where the rounding is to a nearest integer (it is
never more than 1/2 away from its argument), and on the spec scenario
(display 300x400, natural 1200x1600, click (50, 50)) it yields
(200, 200). -/
theorem c7_round_formula_and_scenario :
    (∀ (lx ly : ℚ) (dw dh nw nh : ℕ),
        mapClickToOriginal lx ly dw dh nw nh =
          (jsRound (lx * ((nw : ℚ) / (dw : ℚ))),
           jsRound (ly * ((nh : ℚ) / (dh : ℚ))))) ∧
    (∀ q : ℚ, |q - (jsRound q : ℚ)| ≤ 1 / 2) ∧
    mapClickToOriginal 50 50 300 400 1200 1600 = (200, 200) := by
  refine ⟨fun _ _ _ _ _ _ => rfl, ?_, ?_⟩
  · intro q
    have h1 : ((⌊q + 1 / 2⌋ : ℤ) : ℚ) ≤ q + 1 / 2 := Int.floor_le _
    have h2 : q + 1 / 2 < (⌊q + 1 / 2⌋ : ℤ) + 1 := Int.lt_floor_add_one _
    rw [abs_le]
    unfold jsRound
    constructor <;> push_cast at h1 h2 ⊢ <;> linarith
  · norm_num [mapClickToOriginal, jsRound]

/-- C8: for positive displayed dimensions and in-bounds local
coordinates, the mapped point lies in [0, naturalWidth] x
[0, naturalHeight]. -/
theorem c8_mapClick_bounds (lx ly : ℚ) (dw dh nw nh : ℕ)
    (hdw : 0 < dw) (hdh : 0 < dh)
    (hx0 : 0 ≤ lx) (hx1 : lx ≤ (dw : ℚ)) (hy0 : 0 ≤ ly) (hy1 : ly ≤ (dh : ℚ)) :
    0 ≤ (mapClickToOriginal lx ly dw dh nw nh).1 ∧
    (mapClickToOriginal lx ly dw dh nw nh).1 ≤ (nw : ℤ) ∧
    0 ≤ (mapClickToOriginal lx ly dw dh nw nh).2 ∧
    (mapClickToOriginal lx ly dw dh nw nh).2 ≤ (nh : ℤ) :=
  ⟨(jsRound_scale_bounds lx dw nw hdw hx0 hx1).1,
   (jsRound_scale_bounds lx dw nw hdw hx0 hx1).2,
   (jsRound_scale_bounds ly dh nh hdh hy0 hy1).1,
   (jsRound_scale_bounds ly dh nh hdh hy0 hy1).2⟩

/-- C8 witness: the bounds at the concrete spec scenario. -/
theorem c8_witness :
    0 ≤ (mapClickToOriginal 50 50 300 400 1200 1600).1 ∧
    (mapClickToOriginal 50 50 300 400 1200 1600).1 ≤ (1200 : ℤ) ∧
    0 ≤ (mapClickToOriginal 50 50 300 400 1200 1600).2 ∧
    (mapClickToOriginal 50 50 300 400 1200 1600).2 ≤ (1600 : ℤ) :=
  c8_mapClick_bounds 50 50 300 400 1200 1600 (by norm_num) (by norm_num)
    (by norm_num) (by norm_num) (by norm_num) (by norm_num)

/-- C9: in every state reachable by traces whose font-size inputs respect
the range input's [12, 72] bounds, no stored edit has empty text or a
font size outside [12, 72]. -/
theorem c9_reachable_edits_wellformed (evts : List Event)
    (hfont : ∀ e ∈ evts, fontInputOk e = true) :
    EditsOk (run evts).app :=
  (foldl_preserves_ok evts initialTrace hfont
    ⟨⟨by decide, by decide⟩, editsOk_of_nil initialState rfl⟩).2

/-- C9 witness: a run that adjusts the font size to 30 and places one
edit; the resulting edit list satisfies the invariant. -/
theorem c9_witness :
    (∀ e ∈ wfTrace, fontInputOk e = true) ∧ EditsOk (run wfTrace).app :=
  ⟨by decide, c9_reachable_edits_wellformed wfTrace (by decide)⟩

/-- C10: the render request never depends on the extracted text.  Two
states differing only in `extractedText` produce identical buildRequest
results, and editing the textarea (handleTextEdit) never changes the
result of buildRequest. -/
theorem c10_buildRequest_ignores_extractedText :
    (∀ (s : AppState) (t1 t2 : String),
        buildRequest { s with extractedText := t1 } =
          buildRequest { s with extractedText := t2 }) ∧
    (∀ (s : AppState) (t : String),
        buildRequest (handleTextEdit t s) = buildRequest s) :=
  ⟨fun _ _ _ => rfl, fun _ _ => rfl⟩
